import Mathlib

set_option autoImplicit false

/-!
Verification development for the `lifecycle` observability-event library
(Go).  The definitions below are a shallow embedding of the Go source:

* `RE` and its matcher embed the Go `regexp` patterns used by the PII
  detector (`src/helpers.go`, `NewPIIDetector`); Go's `MatchString` is
  "a match exists somewhere in the string", so field patterns use
  `RE.search` and the value patterns (which are written `^...$` in the
  source) use `RE.matchFull` on the anchored body.
* `Value` models Go's `interface\x7b\x7d` data values as they appear in
  event payloads (strings, numbers, booleans, nil, nested
  `map[string]interface\x7b\x7d`, `[]interface\x7b\x7d`).  Go `nil`
  maps/slices are modelled with `Option` at the points where the source
  checks for `nil`.
* `Redactor.*`, `Producer.*`, `ColorRegistry.*`, `StyledOutput.*` follow
  the functions of the same names in the source files.
-/

namespace Lifecycle

/-! Section: a small regular-expression engine (Brzozowski derivatives).

The Go source matches with `regexp.Regexp.MatchString`.  We embed each
concrete pattern as an `RE` term and decide matching by derivatives.
-/

inductive RE where
  | emp : RE
  | eps : RE
  | cls : (Char → Bool) → RE
  | cat : RE → RE → RE
  | alt : RE → RE → RE
  | star : RE → RE

def RE.nullable : RE → Bool
  | .emp => false
  | .eps => true
  | .cls _ => false
  | .cat r s => r.nullable && s.nullable
  | .alt r s => r.nullable || s.nullable
  | .star _ => true

def RE.deriv : RE → Char → RE
  | .emp, _ => .emp
  | .eps, _ => .emp
  | .cls p, c => if p c then .eps else .emp
  | .cat r s, c =>
      if r.nullable then .alt (.cat (r.deriv c) s) (s.deriv c)
      else .cat (r.deriv c) s
  | .alt r s, c => .alt (r.deriv c) (s.deriv c)
  | .star r, c => .cat (r.deriv c) (.star r)

/-- Whole-string match (the `^...$`-anchored patterns of the source). -/
def RE.matchFull (r : RE) (cs : List Char) : Bool :=
  (cs.foldl RE.deriv r).nullable

/-- Does some prefix of `cs` match `r`? -/
def RE.matchAtStart : RE → List Char → Bool
  | r, [] => r.nullable
  | r, c :: cs => r.nullable || (r.deriv c).matchAtStart cs

/-- Does some substring of `cs` match `r`?  This is Go `MatchString`
for an unanchored pattern. -/
def RE.search : RE → List Char → Bool
  | r, [] => r.nullable
  | r, c :: cs => r.matchAtStart (c :: cs) || r.search cs

/-- A single literal character. -/
def RE.chr (c : Char) : RE := .cls (fun x => x = c)

/-- A case-insensitive literal character (the source patterns carry the
Go flag `(?i)`; the pattern character is stored lowercase). -/
def RE.chri (c : Char) : RE := .cls (fun x => x.toLower = c)

/-- Go `.`: any character except newline. -/
def RE.dot : RE := .cls (fun x => !(x = '\n'))

def RE.opt (r : RE) : RE := .alt .eps r

def RE.plus (r : RE) : RE := .cat r (.star r)

def RE.repExact (r : RE) : Nat → RE
  | 0 => .eps
  | n + 1 => .cat r (r.repExact n)

def RE.repUpTo (r : RE) : Nat → RE
  | 0 => .eps
  | n + 1 => .alt .eps (.cat r (r.repUpTo n))

/-- Go bounded repetition `r\x7blo,lo+extra\x7d`. -/
def RE.repRange (r : RE) (lo extra : Nat) : RE :=
  .cat (r.repExact lo) (r.repUpTo extra)

/-- Go repetition `r\x7blo,\x7d`. -/
def RE.repAtLeast (r : RE) (lo : Nat) : RE :=
  .cat (r.repExact lo) (.star r)

/-! Section: character classes appearing in the source patterns. -/

/-- Go `\d` (ASCII digits). -/
def digitChar : Char → Bool := Char.isDigit

/-- Go `[a-zA-Z]`. -/
def alphaChar : Char → Bool := fun c => c.isUpper || c.isLower

/-- Go `\s` (`[\t\n\f\r ]`). -/
def spaceChar : Char → Bool := fun c =>
  c = '\t' || c = '\n' || c = '\x0c' || c = '\r' || c = ' '

/-- Go `[a-zA-Z0-9._%+\-]` (email local part). -/
def emailLocalChar : Char → Bool := fun c =>
  alphaChar c || c.isDigit || c = '.' || c = '_' || c = '%' || c = '+' || c = '-'

/-- Go `[a-zA-Z0-9.\-]` (email domain part). -/
def emailDomainChar : Char → Bool := fun c =>
  alphaChar c || c.isDigit || c = '.' || c = '-'

/-- Go `[-.\s]` (phone separator). -/
def phoneSepChar : Char → Bool := fun c => c = '-' || c = '.' || spaceChar c

/-- Go `[\s\-]` (credit-card separator). -/
def cardSepChar : Char → Bool := fun c => spaceChar c || c = '-'

/-- Go `[1-9]`. -/
def nonZeroDigitChar : Char → Bool := fun c => c.isDigit && !(c = '0')

/-! Section: the PII detector (`src/helpers.go`, `NewPIIDetector`). -/

/-- A case-insensitive pattern fragment, turned into an `RE`:
`.` is the Go wildcard, every other character a case-insensitive
literal.  This is the shape of each alternative inside the
`piiFieldPatterns` of the source. -/
def fragRE : List Char → RE
  | [] => .eps
  | c :: cs => .cat (if c = '.' then RE.dot else RE.chri c) (fragRE cs)

/-- The alternatives of the ten `piiFieldPatterns` regexes of
`NewPIIDetector`, flattened: an unanchored `(?i)(a|b)` matches a string
iff one of the alternatives matches somewhere in it. -/
def piiFieldFragments : List String :=
  ["email", "e-mail",
   "phone", "telephone", "mobile",
   "ssn", "social.security",
   "credit.card", "card.number",
   "password", "passwd", "pwd",
   "secret", "token", "key",
   "address", "street", "city", "zip", "postal",
   "name", "firstname", "lastname", "fullname",
   "dob", "date.of.birth", "birthdate",
   "ip.address", "ip_addr"]

/-- Go pattern `^[a-zA-Z0-9._%+\-]+@[a-zA-Z0-9.\-]+\.[a-zA-Z]\x7b2,\x7d$`. -/
def emailValueRE : RE :=
  .cat (RE.plus (.cls emailLocalChar))
    (.cat (RE.chr '@')
      (.cat (RE.plus (.cls emailDomainChar))
        (.cat (RE.chr '.') (RE.repAtLeast (.cls alphaChar) 2))))

/-- Go pattern `^\+?[1-9]\d\x7b1,14\x7d$`. -/
def phoneE164RE : RE :=
  .cat (RE.opt (RE.chr '+'))
    (.cat (.cls nonZeroDigitChar) (RE.repRange (.cls digitChar) 1 13))

/-- Go pattern `^\(?\d\x7b3\x7d\)?[-.\s]?\d\x7b3\x7d[-.\s]?\d\x7b4\x7d$`. -/
def phoneUSRE : RE :=
  .cat (RE.opt (RE.chr '('))
    (.cat (RE.repExact (.cls digitChar) 3)
      (.cat (RE.opt (RE.chr ')'))
        (.cat (RE.opt (.cls phoneSepChar))
          (.cat (RE.repExact (.cls digitChar) 3)
            (.cat (RE.opt (.cls phoneSepChar))
              (RE.repExact (.cls digitChar) 4))))))

/-- Go pattern `^\d\x7b4\x7d[\s\-]?\d\x7b4\x7d[\s\-]?\d\x7b4\x7d[\s\-]?\d\x7b4\x7d$`. -/
def creditCardRE : RE :=
  .cat (RE.repExact (.cls digitChar) 4)
    (.cat (RE.opt (.cls cardSepChar))
      (.cat (RE.repExact (.cls digitChar) 4)
        (.cat (RE.opt (.cls cardSepChar))
          (.cat (RE.repExact (.cls digitChar) 4)
            (.cat (RE.opt (.cls cardSepChar))
              (RE.repExact (.cls digitChar) 4))))))

/-- Go pattern `^\d\x7b3\x7d-?\d\x7b2\x7d-?\d\x7b4\x7d$`. -/
def ssnRE : RE :=
  .cat (RE.repExact (.cls digitChar) 3)
    (.cat (RE.opt (RE.chr '-'))
      (.cat (RE.repExact (.cls digitChar) 2)
        (.cat (RE.opt (RE.chr '-'))
          (RE.repExact (.cls digitChar) 4))))

/-- Go `PIIDetector` (`src/helpers.go`): field-name patterns and
value-shape patterns. -/
structure PIIDetector where
  piiFieldPatternList : List RE
  piiValuePatternList : List RE

/-- Go `NewPIIDetector` (`src/helpers.go` line 53). -/
def NewPIIDetector : PIIDetector where
  piiFieldPatternList := piiFieldFragments.map (fun s => fragRE s.data)
  piiValuePatternList := [emailValueRE, phoneE164RE, phoneUSRE, creditCardRE, ssnRE]

/-- Go `PIIDetector.IsPIIField` (`src/helpers.go` line 83): some field
pattern matches somewhere in the field name. -/
def PIIDetector.IsPIIField (d : PIIDetector) (fieldName : String) : Bool :=
  d.piiFieldPatternList.any (fun r => r.search fieldName.data)

/-- String part of `PIIDetector.IsPIIValue`: the value patterns are
anchored, so a match is a whole-string match. -/
def PIIDetector.IsPIIValueStr (d : PIIDetector) (s : String) : Bool :=
  d.piiValuePatternList.any (fun r => r.matchFull s.data)

/-! Section: data values.

`Value` models the Go `interface\x7b\x7d` values stored in event
payloads.  A Go `nil` map or slice is modelled as the empty list here;
the `nil`-input checks of the source are modelled with `Option` on the
functions that perform them.
-/

inductive Value where
  | str : String → Value
  | int : Int → Value
  | bool : Bool → Value
  | null : Value
  | map : List (String × Value) → Value
  | arr : List Value → Value

/-- Go `PIIDetector.IsPIIValue` (`src/helpers.go` line 93): only string
values are matched, every other dynamic type returns false. -/
def PIIDetector.IsPIIValue (d : PIIDetector) (value : Value) : Bool :=
  match value with
  | .str s => d.IsPIIValueStr s
  | _ => false

/-- Go `Redactor` (`src/helpers.go`): carries the replacement marker. -/
structure Redactor where
  redactionString : String

/-- Go `NewRedactor` (`src/helpers.go` line 113). -/
def NewRedactor : Redactor := ⟨"[REDACTED]"⟩

/-- Go `Redactor.WithRedactionString` (`src/helpers.go` line 120). -/
def Redactor.WithRedactionString (r : Redactor) (s : String) : Redactor :=
  { r with redactionString := s }

/-- Go `Redactor.Redact` (`src/helpers.go` line 126): replaces the value
with the marker only when it is a string matching the value patterns of
a fresh default detector (the source calls `NewPIIDetector()` inside);
any other value is returned unchanged. -/
def Redactor.Redact (r : Redactor) (value : Value) : Value :=
  match value with
  | .str s => if NewPIIDetector.IsPIIValueStr s then .str r.redactionString else .str s
  | v => v

/-- Go `Redactor.RedactString` (`src/helpers.go` line 215). -/
def Redactor.RedactString (r : Redactor) (value : String) : String :=
  if NewPIIDetector.IsPIIValueStr value then r.redactionString else value

/-! Go `Redactor.RedactMap` and `Redactor.RedactSlice` (`src/helpers.go`
lines 143-193) recurse into nested maps and slices.  The per-entry and
per-element bodies are split out so each equation mirrors one branch of
the Go code. -/

mutual

/-- Entry list of `Redactor.RedactMap`: each key keeps its position,
the value is rewritten by `redactMapValue`. -/
def redactMapEntries (r : Redactor) (d : PIIDetector) : List (String × Value) → List (String × Value)
  | [] => []
  | (k, v) :: rest => (k, redactMapValue r d k v) :: redactMapEntries r d rest

/-- One entry of `Redactor.RedactMap`: field-name match or value match
replaces the value with the marker; otherwise nested maps and slices
are recursed into and all other values pass through. -/
def redactMapValue (r : Redactor) (d : PIIDetector) (k : String) (v : Value) : Value :=
  if d.IsPIIField k then .str r.redactionString
  else if d.IsPIIValue v then .str r.redactionString
  else match v with
    | .map nested => .map (redactMapEntries r d nested)
    | .arr elems => .arr (redactSliceElems r d elems)
    | v' => v'

/-- Element list of `Redactor.RedactSlice`. -/
def redactSliceElems (r : Redactor) (d : PIIDetector) : List Value → List Value
  | [] => []
  | v :: rest => redactSliceValue r d v :: redactSliceElems r d rest

/-- One element of `Redactor.RedactSlice`: value match replaces with the
marker, nested maps are recursed into, everything else (including nested
slices) passes through unchanged. -/
def redactSliceValue (r : Redactor) (d : PIIDetector) (v : Value) : Value :=
  if d.IsPIIValue v then .str r.redactionString
  else match v with
    | .map nested => .map (redactMapEntries r d nested)
    | v' => v'

end

/-- Go `Redactor.RedactMap` (`src/helpers.go` line 143), with the source's
`nil` check modelled by `Option`. -/
def Redactor.RedactMap (r : Redactor) (data : Option (List (String × Value)))
    (detector : PIIDetector) : Option (List (String × Value)) :=
  match data with
  | none => none
  | some m => some (redactMapEntries r detector m)

/-- Go `Redactor.RedactSlice` (`src/helpers.go` line 176), with the
source's `nil` check modelled by `Option`. -/
def Redactor.RedactSlice (r : Redactor) (slice : Option (List Value))
    (detector : PIIDetector) : Option (List Value) :=
  match slice with
  | none => none
  | some l => some (redactSliceElems r detector l)

/-- One element of `Redactor.RedactParams`: only the value detector is
applied, with no recursion. -/
def redactParamValue (r : Redactor) (v : Value) : Value :=
  if NewPIIDetector.IsPIIValue v then .str r.redactionString else v

/-- Go `Redactor.RedactParams` (`src/helpers.go` line 196): uses a fresh
default detector and applies only the value patterns to each element. -/
def Redactor.RedactParams (r : Redactor) (params : Option (List Value)) : Option (List Value) :=
  match params with
  | none => none
  | some l => some (l.map (redactParamValue r))

/-! Section: schema field annotations and `Producer.redactData`
(`src/producer.go` lines 152-206). -/

/-- Modelled from the spec: the current `FieldAnnotations` struct is not
under `src/` (an older two-flag version appears in
`src/unnamed/part_005`); the four booleans here are exactly the flags
read by `src/producer.go` line 168 and named in spec section 3
(FieldSensitivity: pii, encrypted, redactable, sensitive). -/
structure FieldAnnotations where
  PII : Bool
  Encrypted : Bool
  Redactable : Bool
  Sensitive : Bool

/-- Lookup in a `map[string]FieldAnnotations`, with the found flag. -/
def annLookup (anns : List (String × FieldAnnotations)) (k : String) : Option FieldAnnotations :=
  match anns with
  | [] => none
  | (k', a) :: rest => if k' = k then some a else annLookup rest k

/-! Go `Producer.redactData` recurses into nested maps and slices; the
per-entry and per-element bodies are split out so each equation mirrors
one branch of the Go code.  `d` is `p.piiDetector` and `r` is
`p.redactor`. -/

mutual

/-- Entry list of `Producer.redactData`. -/
def redactDataEntries (d : PIIDetector) (r : Redactor) (anns : List (String × FieldAnnotations)) :
    List (String × Value) → List (String × Value)
  | [] => []
  | (k, v) :: rest => (k, redactDataValue d r anns k v) :: redactDataEntries d r anns rest

/-- One entry of `Producer.redactData` (`src/producer.go` lines
162-202).  `shouldRedact` is set from the schema flags when an
annotation entry exists, and otherwise (Go: `if !shouldRedact`) from the
heuristic detectors; a field to redact is passed through
`Redactor.Redact`, everything else recurses into nested structures. -/
def redactDataValue (d : PIIDetector) (r : Redactor) (anns : List (String × FieldAnnotations))
    (k : String) (v : Value) : Value :=
  let fromSchema := match annLookup anns k with
    | some a => a.PII || a.Redactable || a.Encrypted || a.Sensitive
    | none => false
  let shouldRedact := fromSchema || (d.IsPIIField k || d.IsPIIValue v)
  if shouldRedact then r.Redact v
  else match v with
    | .map nested => .map (redactDataEntries d r anns nested)
    | .arr elems => .arr (redactDataSliceElems d r anns elems)
    | v' => v'

/-- Slice handling of `Producer.redactData` (`src/producer.go` lines
183-198): a map item recurses, any other item is redacted through
`Redactor.Redact` when the value detector matches it. -/
def redactDataSliceElems (d : PIIDetector) (r : Redactor) (anns : List (String × FieldAnnotations)) :
    List Value → List Value
  | [] => []
  | item :: rest =>
    (match item with
     | .map nested => .map (redactDataEntries d r anns nested)
     | it => if d.IsPIIValue it then r.Redact it else it) :: redactDataSliceElems d r anns rest

end

/-! Section: the color registry (`src/colors.go`). -/

/-- Last-write-wins insertion into an association-list model of a Go
map. -/
def mapInsert (m : List (String × String)) (k v : String) : List (String × String) :=
  match m with
  | [] => [(k, v)]
  | (k', v') :: rest => if k' = k then (k, v) :: rest else (k', v') :: mapInsert rest k v

/-- Map read returning `none` when the key is absent. -/
def mapLookup (m : List (String × String)) (k : String) : Option String :=
  match m with
  | [] => none
  | (k', v) :: rest => if k' = k then some v else mapLookup rest k

/-- Go `ColorRegistry` (`src/colors.go` line 9): four independent
mappings. -/
structure ColorRegistry where
  serviceColors : List (String × String)
  apiColors : List (String × String)
  eventColors : List (String × String)
  statusColors : List (String × String)

/-- Go `defaultStatusColors` (`src/colors.go` line 27): the twelve
pre-seeded status colors. -/
def defaultStatusColorsList : List (String × String) :=
  [("success", "#00FF00"), ("error", "#FF0000"), ("warning", "#FFA500"),
   ("info", "#00BFFF"), ("pending", "#FFFF00"), ("in_progress", "#9370DB"),
   ("completed", "#00FF00"), ("failed", "#FF0000"), ("cancelled", "#808080"),
   ("created", "#00BFFF"), ("updated", "#FFA500"), ("deleted", "#FF0000")]

/-- Go `NewColorRegistry` (`src/colors.go` line 17). -/
def NewColorRegistry : ColorRegistry :=
  ⟨[], [], [], defaultStatusColorsList⟩

/-- Go `ColorRegistry.RegisterServiceColor` (`src/colors.go` line 45). -/
def ColorRegistry.RegisterServiceColor (r : ColorRegistry) (service color : String) : ColorRegistry :=
  { r with serviceColors := mapInsert r.serviceColors service color }

/-- Go `ColorRegistry.RegisterAPIColor` (`src/colors.go` line 50). -/
def ColorRegistry.RegisterAPIColor (r : ColorRegistry) (api color : String) : ColorRegistry :=
  { r with apiColors := mapInsert r.apiColors api color }

/-- Go `ColorRegistry.RegisterEventColor` (`src/colors.go` line 55). -/
def ColorRegistry.RegisterEventColor (r : ColorRegistry) (eventType color : String) : ColorRegistry :=
  { r with eventColors := mapInsert r.eventColors eventType color }

/-- Go `ColorRegistry.RegisterStatusColor` (`src/colors.go` line 60). -/
def ColorRegistry.RegisterStatusColor (r : ColorRegistry) (status color : String) : ColorRegistry :=
  { r with statusColors := mapInsert r.statusColors status color }

/-- Go `ColorRegistry.GetServiceColor` (`src/colors.go` line 65): a Go
map read yields the zero value (the empty string) when absent. -/
def ColorRegistry.GetServiceColor (r : ColorRegistry) (service : String) : String :=
  (mapLookup r.serviceColors service).getD ""

/-- Go `ColorRegistry.GetAPIColor` (`src/colors.go` line 70). -/
def ColorRegistry.GetAPIColor (r : ColorRegistry) (api : String) : String :=
  (mapLookup r.apiColors api).getD ""

/-- Go `ColorRegistry.GetEventColor` (`src/colors.go` line 75). -/
def ColorRegistry.GetEventColor (r : ColorRegistry) (eventType : String) : String :=
  (mapLookup r.eventColors eventType).getD ""

/-- Go `ColorRegistry.GetStatusColor` (`src/colors.go` line 80): a
present entry (pre-seeded default or registered override) is returned,
anything else defaults to gray. -/
def ColorRegistry.GetStatusColor (r : ColorRegistry) (status : String) : String :=
  match mapLookup r.statusColors status with
  | some color => color
  | none => "#808080"

/-- Applies a sequence of `RegisterStatusColor` calls in order. -/
def applyStatusRegistrations (regs : List (String × String)) (r : ColorRegistry) : ColorRegistry :=
  regs.foldl (fun acc p => acc.RegisterStatusColor p.1 p.2) r

/-! Section: the event model.

The current `events.go` (flattened `BaseEvent` carrying `api`) is not
under `src/`; `src/unnamed/part_005` holds an older snapshot whose
events nest the base under a `base` field and whose `BaseEvent` lacks
`api`.  `BaseEvent` below therefore has exactly the fields constructed
by `src/producer.go` line 139, and `Event.RedactPII` follows the
`RedactPII` implementations of the part_005 snapshot (which spec
section 4.2 confirms: only the free-form-payload variants are
redacted, via `RedactMap`). -/

/-- Go `ActorType` enum. -/
inductive ActorType where
  | human : ActorType
  | system : ActorType
  | synthetic : ActorType

/-- Go `Actor`. -/
structure Actor where
  UserID : String
  ActorTypeOf : ActorType

/-- Go `Resource`; `rtype` is the Go field `Type` (a reserved word
here). -/
structure Resource where
  rtype : String
  ID : String

/-- Go `Status` (the success/error vocabulary of outcome variants). -/
inductive Status where
  | success : Status
  | error : Status

/-- Fields built by `Producer.createBaseEvent` (`src/producer.go` line
139); timestamps are an abstract clock value. -/
structure BaseEvent where
  eventType : String
  timestamp : Nat
  service : String
  api : String
  host : String
  correlationID : String
  metadata : Option (List (String × Value))

/-- The closed set of event variants, with the variant fields
constructed by the emit functions of `src/producer.go`. -/
inductive Event where
  | serviceStarted (base : BaseEvent) (version : String) (pid : Int)
  | serviceHealthy (base : BaseEvent) (healthChecks : List String)
  | serviceShutdown (base : BaseEvent) (reason : String) (exitCode : Int)
  | serviceCrashed (base : BaseEvent) (reason stackTrace : String) (exitCode : Int)
  | requestReceived (base : BaseEvent) (method path userAgent remoteAddr : String)
  | requestHandled (base : BaseEvent) (actor : Option Actor) (resource : Option Resource)
      (status : Status) (durationMs statusCode responseSizeBytes : Int)
  | requestErrored (base : BaseEvent) (status : Status) (errorMessage errorCode : String)
      (statusCode durationMs : Int)
  | requestRetried (base : BaseEvent) (retryCount delayMs : Int) (retryReason : String)
  | queryStarted (base : BaseEvent) (queryID query : String) (params : Option (List Value))
  | queryCompleted (base : BaseEvent) (queryID : String) (durationMs rowsAffected : Int)
  | queryErrored (base : BaseEvent) (queryID errorMessage errorCode : String) (durationMs : Int)
  | transactionStarted (base : BaseEvent) (transactionID : String)
  | transactionCommitted (base : BaseEvent) (transactionID : String) (durationMs : Int)
  | transactionRolledBack (base : BaseEvent) (transactionID reason : String) (durationMs : Int)
  | resourceCreated (base : BaseEvent) (actor : Option Actor) (resource : Option Resource)
      (resourceData : Option (List (String × Value)))
  | resourceUpdated (base : BaseEvent) (actor : Option Actor) (resource : Option Resource)
      (previousData newData : Option (List (String × Value))) (updatedFields : List String)
  | resourceDeleted (base : BaseEvent) (actor : Option Actor) (resource : Option Resource)
      (softDelete : Bool) (finalData : Option (List (String × Value)))

/-- The base envelope of any variant (the Go `Event` interface
getters). -/
def Event.base : Event → BaseEvent
  | .serviceStarted b _ _ => b
  | .serviceHealthy b _ => b
  | .serviceShutdown b _ _ => b
  | .serviceCrashed b _ _ _ => b
  | .requestReceived b _ _ _ _ => b
  | .requestHandled b _ _ _ _ _ _ => b
  | .requestErrored b _ _ _ _ _ => b
  | .requestRetried b _ _ _ => b
  | .queryStarted b _ _ _ => b
  | .queryCompleted b _ _ _ => b
  | .queryErrored b _ _ _ _ => b
  | .transactionStarted b _ => b
  | .transactionCommitted b _ _ => b
  | .transactionRolledBack b _ _ _ => b
  | .resourceCreated b _ _ _ => b
  | .resourceUpdated b _ _ _ _ _ => b
  | .resourceDeleted b _ _ _ _ => b

/-- Go `RedactPII` dispatch of `Producer.emitEvent`
(`src/producer.go` lines 211-214): only the `EventWithData` variants
(the three resource events) carry free-form payloads; each applies
`Redactor.RedactMap` to its non-nil payload maps, which is exactly
`Redactor.RedactMap` on the `Option` model. -/
def Event.redactPII (e : Event) (d : PIIDetector) (r : Redactor) : Event :=
  match e with
  | .resourceCreated b a res rd => .resourceCreated b a res (r.RedactMap rd d)
  | .resourceUpdated b a res pd nd uf =>
      .resourceUpdated b a res (r.RedactMap pd d) (r.RedactMap nd d) uf
  | .resourceDeleted b a res sd fd => .resourceDeleted b a res sd (r.RedactMap fd d)
  | e' => e'

/-- The free-form payload maps a variant carries (the fields rewritten
by `Event.redactPII`). -/
def Event.payloadMaps : Event → List (Option (List (String × Value)))
  | .resourceCreated _ _ _ rd => [rd]
  | .resourceUpdated _ _ _ pd nd _ => [pd, nd]
  | .resourceDeleted _ _ _ _ fd => [fd]
  | _ => []

/-! Section: serialization.

The serialized record shape is decided by the current `events.go`,
which is not under `src/` (the `src/unnamed/part_005` snapshot is an
older, nested variant without `api`); it is modelled from the spec
here. -/

/-- JSON form of an `Actor`. -/
def actorValue : Option Actor → Value
  | none => .null
  | some a => .map [("user_id", .str a.UserID),
      ("actor_type", .str (match a.ActorTypeOf with
        | .human => "human" | .system => "system" | .synthetic => "synthetic"))]

/-- JSON form of a `Resource`. -/
def resourceValue : Option Resource → Value
  | none => .null
  | some res => .map [("type", .str res.rtype), ("id", .str res.ID)]

/-- JSON form of an optional payload map. -/
def optMapValue : Option (List (String × Value)) → Value
  | none => .null
  | some m => .map m

/-- JSON form of a `Status`. -/
def statusValue : Status → Value
  | .success => .str "success"
  | .error => .str "error"

/-- The seven base-envelope field names of the serialized record (spec
sections 3 and 6). -/
def baseFieldNames : List String :=
  ["event_type", "timestamp", "service", "api", "host", "correlation_id", "metadata"]

/-- Base-envelope portion of the serialized record. -/
def baseFields (b : BaseEvent) : List (String × Value) :=
  [("event_type", .str b.eventType), ("timestamp", .int b.timestamp),
   ("service", .str b.service), ("api", .str b.api), ("host", .str b.host),
   ("correlation_id", .str b.correlationID), ("metadata", optMapValue b.metadata)]

/-- Variant-specific portion of the serialized record, with the field
names of spec section 3 and of the part_005 JSON tags. -/
def variantFields : Event → List (String × Value)
  | .serviceStarted _ version pid => [("version", .str version), ("pid", .int pid)]
  | .serviceHealthy _ hcs => [("health_checks", .arr (hcs.map Value.str))]
  | .serviceShutdown _ reason exitCode =>
      [("reason", .str reason), ("exit_code", .int exitCode)]
  | .serviceCrashed _ reason stackTrace exitCode =>
      [("reason", .str reason), ("stack_trace", .str stackTrace), ("exit_code", .int exitCode)]
  | .requestReceived _ method path userAgent remoteAddr =>
      [("method", .str method), ("path", .str path),
       ("user_agent", .str userAgent), ("remote_addr", .str remoteAddr)]
  | .requestHandled _ actor resource status durationMs statusCode responseSizeBytes =>
      [("actor", actorValue actor), ("resource", resourceValue resource),
       ("status", statusValue status), ("duration_ms", .int durationMs),
       ("status_code", .int statusCode), ("response_size_bytes", .int responseSizeBytes)]
  | .requestErrored _ status errorMessage errorCode statusCode durationMs =>
      [("status", statusValue status), ("error_message", .str errorMessage),
       ("error_code", .str errorCode), ("status_code", .int statusCode),
       ("duration_ms", .int durationMs)]
  | .requestRetried _ retryCount delayMs retryReason =>
      [("retry_count", .int retryCount), ("delay_ms", .int delayMs),
       ("retry_reason", .str retryReason)]
  | .queryStarted _ queryID query params =>
      [("query_id", .str queryID), ("query", .str query),
       ("params", match params with | none => .null | some l => .arr l)]
  | .queryCompleted _ queryID durationMs rowsAffected =>
      [("query_id", .str queryID), ("duration_ms", .int durationMs),
       ("rows_affected", .int rowsAffected)]
  | .queryErrored _ queryID errorMessage errorCode durationMs =>
      [("query_id", .str queryID), ("error_message", .str errorMessage),
       ("error_code", .str errorCode), ("duration_ms", .int durationMs)]
  | .transactionStarted _ transactionID => [("transaction_id", .str transactionID)]
  | .transactionCommitted _ transactionID durationMs =>
      [("transaction_id", .str transactionID), ("duration_ms", .int durationMs)]
  | .transactionRolledBack _ transactionID reason durationMs =>
      [("transaction_id", .str transactionID), ("reason", .str reason),
       ("duration_ms", .int durationMs)]
  | .resourceCreated _ actor resource resourceData =>
      [("actor", actorValue actor), ("resource", resourceValue resource),
       ("resource_data", optMapValue resourceData)]
  | .resourceUpdated _ actor resource previousData newData updatedFields =>
      [("actor", actorValue actor), ("resource", resourceValue resource),
       ("previous_data", optMapValue previousData), ("new_data", optMapValue newData),
       ("updated_fields", .arr (updatedFields.map Value.str))]
  | .resourceDeleted _ actor resource softDelete finalData =>
      [("actor", actorValue actor), ("resource", resourceValue resource),
       ("soft_delete", .bool softDelete), ("final_data", optMapValue finalData)]

/-- Modelled from the spec: one JSON object per event whose top-level
fields are the seven base-envelope fields followed by the
variant-specific fields (spec sections 3 and 6); the defining
`events.go` is not under `src/`. -/
def serializeEvent (e : Event) : List (String × Value) :=
  baseFields e.base ++ variantFields e

/-! Section: styled output (`src/unnamed/part_003`). -/

/-- Go `StyledOutput` (`src/unnamed/part_003` line 14): whether a
separate JSON writer is configured, the JSON-only flag, and the color
registry (a Go pointer, hence optional). -/
structure StyledOutput where
  jsonOutputSet : Bool
  jsonOnly : Bool
  colorRegistry : Option ColorRegistry

/-- Go `NewStyledOutput` (`src/unnamed/part_003` line 54) before
options are applied: no separate JSON writer, styling on, default
registry. -/
def NewStyledOutput : StyledOutput :=
  ⟨false, false, some NewColorRegistry⟩

/-- Go `StyledOutput.getStatusCodeColor` (`src/unnamed/part_003` lines
408-425). -/
def StyledOutput.getStatusCodeColor (s : StyledOutput) (statusCode : Int) : String :=
  match s.colorRegistry with
  | none => ""
  | some reg =>
    if 200 ≤ statusCode ∧ statusCode < 300 then reg.GetStatusColor "success"
    else if 300 ≤ statusCode ∧ statusCode < 400 then reg.GetStatusColor "info"
    else if 400 ≤ statusCode ∧ statusCode < 500 then reg.GetStatusColor "warning"
    else if 500 ≤ statusCode then reg.GetStatusColor "error"
    else ""

/-- One sink write performed by an emission: a serialized JSON record
on the primary writer (plain mode), a serialized JSON record on the
separate JSON writer of the styled sink, or a styled terminal line
rendered from an event (its exact rendering is outside the core
contract, so the write carries the event it renders). -/
inductive Write where
  | jsonPrimary (record : List (String × Value))
  | jsonSecondary (record : List (String × Value))
  | styledLine (ev : Event)

/-- Go `StyledOutput.WriteEvent` (`src/unnamed/part_003` lines 71-90)
as the list of writes it performs, in order: the JSON record first when
a JSON writer is configured, then the styled line unless JSON-only mode
is set. -/
def StyledOutput.WriteEventWrites (s : StyledOutput) (event : Event) : List Write :=
  (if s.jsonOutputSet then [Write.jsonSecondary (serializeEvent event)] else [])
    ++ (if s.jsonOnly then [] else [Write.styledLine event])

/-! Section: the producer (`src/producer.go`). -/

/-- Go `Producer` (`src/producer.go` line 22); the writers and loggers
are represented by the writes they receive, the OTel integration
performs no sink writes. -/
structure Producer where
  service : String
  api : String
  host : String
  styled : Option StyledOutput
  colorRegistry : Option ColorRegistry
  piiDetector : PIIDetector
  redactor : Redactor

/-- Go `NewProducer` (`src/producer.go` line 105) before options are
applied. -/
def NewProducer (service host : String) : Producer :=
  ⟨service, "", host, none, some NewColorRegistry, NewPIIDetector, NewRedactor⟩

/-- Go `WithAPI` option (`src/producer.go` line 75). -/
def Producer.withAPI (p : Producer) (api : String) : Producer :=
  { p with api := api }

/-- Go `WithStyledOutput` option (`src/producer.go` line 84). -/
def Producer.withStyledOutput (p : Producer) (s : StyledOutput) : Producer :=
  { p with styled := some s }

/-- Go `Producer.createBaseEvent` (`src/producer.go` lines 133-150):
the variadic trailing `api` argument overrides the producer-level API
only when present and non-empty. -/
def Producer.createBaseEvent (p : Producer) (now : Nat) (eventType correlationID : String)
    (metadata : Option (List (String × Value))) (api : List String) : BaseEvent :=
  let apiID := match api with
    | [] => p.api
    | a :: _ => if a = "" then p.api else a
  ⟨eventType, now, p.service, apiID, p.host, correlationID, metadata⟩

/-- Go `Producer.redactData` (`src/producer.go` line 155), with the
source's `nil` check modelled by `Option`. -/
def Producer.redactData (p : Producer) (data : Option (List (String × Value)))
    (schemaAnns : List (String × FieldAnnotations)) : Option (List (String × Value)) :=
  match data with
  | none => none
  | some m => some (redactDataEntries p.piiDetector p.redactor schemaAnns m)

/-- Go `Producer.emitEvent` (`src/producer.go` lines 210-246) as the
list of sink writes it performs: PII redaction happens first, then the
OTel span and metrics (no sink writes), then either the styled sink or
a single JSON record on the primary writer. -/
def Producer.emitEventWrites (p : Producer) (event : Event) : List Write :=
  let redacted := event.redactPII p.piiDetector p.redactor
  match p.styled with
  | some s => s.WriteEventWrites redacted
  | none => [Write.jsonPrimary (serializeEvent redacted)]

/-! Section: context helpers and emit functions (`src/producer.go`
lines 248-527). -/

/-- A value stored in a Go `context.Context`: the string case is the
only one the extraction helpers type-assert successfully. -/
inductive CtxValue where
  | str (s : String) : CtxValue
  | nonString : CtxValue

/-- A Go `context.Context`, as the key-value pairs reachable from it. -/
def Ctx := List (String × CtxValue)

/-- Context lookup (Go `ctx.Value`). -/
def ctxLookup (ctx : Ctx) (k : String) : Option CtxValue :=
  match ctx with
  | [] => none
  | (k', v) :: rest => if k' = k then some v else ctxLookup rest k

/-- Go `extractCorrelationID` (`src/producer.go` lines 506-511): the
string stored under `"correlation_id"`, or the empty string when the
value is absent or not a string. -/
def extractCorrelationID (ctx : Ctx) : String :=
  match ctxLookup ctx "correlation_id" with
  | some (.str id) => id
  | _ => ""

/-- The resource-type API fallback shared by the request-outcome and
resource emit functions (`src/producer.go` lines 310-315): the
explicit argument if present and non-empty, else the resource type if
the resource is non-nil with a non-empty type, else the empty string
(which `createBaseEvent` then replaces by the producer-level API). -/
def resolveEmitAPIID (api : List String) (resource : Option Resource) : String :=
  match api with
  | a :: _ =>
    if a = "" then
      match resource with
      | some res => if res.rtype = "" then "" else res.rtype
      | none => ""
    else a
  | [] =>
    match resource with
    | some res => if res.rtype = "" then "" else res.rtype
    | none => ""

/-- Event built by `Producer.EmitRequestHandled` (`src/producer.go`
lines 307-327). -/
def Producer.buildRequestHandled (p : Producer) (now : Nat) (correlationID : String)
    (actor : Option Actor) (resource : Option Resource)
    (statusCode durationMs responseSizeBytes : Int) (api : List String) : Event :=
  .requestHandled
    (p.createBaseEvent now "api.request.handled" correlationID none [resolveEmitAPIID api resource])
    actor resource .success durationMs statusCode responseSizeBytes

/-- Event built by `Producer.EmitQueryStarted` (`src/producer.go`
lines 359-370): parameters are redacted with `RedactParams`, the
correlation id comes from the context. -/
def Producer.buildQueryStarted (p : Producer) (now : Nat) (ctx : Ctx)
    (queryID query : String) (params : Option (List Value)) : Event :=
  .queryStarted (p.createBaseEvent now "db.query.started" (extractCorrelationID ctx) none [])
    queryID query (p.redactor.RedactParams params)

/-- Event built by `Producer.EmitQueryCompleted` (`src/producer.go`
lines 373-381). -/
def Producer.buildQueryCompleted (p : Producer) (now : Nat) (ctx : Ctx)
    (queryID : String) (durationMs rowsAffected : Int) : Event :=
  .queryCompleted (p.createBaseEvent now "db.query.completed" (extractCorrelationID ctx) none [])
    queryID durationMs rowsAffected

/-- Event built by `Producer.EmitQueryErrored` (`src/producer.go`
lines 384-393). -/
def Producer.buildQueryErrored (p : Producer) (now : Nat) (ctx : Ctx)
    (queryID errorMessage errorCode : String) (durationMs : Int) : Event :=
  .queryErrored (p.createBaseEvent now "db.query.errored" (extractCorrelationID ctx) none [])
    queryID errorMessage errorCode durationMs

/-- Event built by `Producer.EmitTransactionStarted` (`src/producer.go`
lines 396-402). -/
def Producer.buildTransactionStarted (p : Producer) (now : Nat) (ctx : Ctx)
    (transactionID : String) : Event :=
  .transactionStarted
    (p.createBaseEvent now "db.transaction.started" (extractCorrelationID ctx) none [])
    transactionID

/-- Event built by `Producer.EmitTransactionCommitted`
(`src/producer.go` lines 405-412). -/
def Producer.buildTransactionCommitted (p : Producer) (now : Nat) (ctx : Ctx)
    (transactionID : String) (durationMs : Int) : Event :=
  .transactionCommitted
    (p.createBaseEvent now "db.transaction.committed" (extractCorrelationID ctx) none [])
    transactionID durationMs

/-- Event built by `Producer.EmitTransactionRolledBack`
(`src/producer.go` lines 415-423). -/
def Producer.buildTransactionRolledBack (p : Producer) (now : Nat) (ctx : Ctx)
    (transactionID reason : String) (durationMs : Int) : Event :=
  .transactionRolledBack
    (p.createBaseEvent now "db.transaction.rolled_back" (extractCorrelationID ctx) none [])
    transactionID reason durationMs

/-- Event built by `Producer.EmitResourceCreated` (`src/producer.go`
lines 429-449): payload redacted with `redactData`, API resolved with
the resource-type fallback. -/
def Producer.buildResourceCreated (p : Producer) (now : Nat) (correlationID : String)
    (actor : Option Actor) (resource : Option Resource)
    (resourceData : Option (List (String × Value)))
    (schemaAnns : List (String × FieldAnnotations)) (api : List String) : Event :=
  .resourceCreated
    (p.createBaseEvent now "resource.created" correlationID none [resolveEmitAPIID api resource])
    actor resource (p.redactData resourceData schemaAnns)

/-- Event built by `Producer.EmitResourceUpdated` (`src/producer.go`
lines 453-476). -/
def Producer.buildResourceUpdated (p : Producer) (now : Nat) (correlationID : String)
    (actor : Option Actor) (resource : Option Resource)
    (previousData newData : Option (List (String × Value))) (updatedFields : List String)
    (schemaAnns : List (String × FieldAnnotations)) (api : List String) : Event :=
  .resourceUpdated
    (p.createBaseEvent now "resource.updated" correlationID none [resolveEmitAPIID api resource])
    actor resource (p.redactData previousData schemaAnns) (p.redactData newData schemaAnns)
    updatedFields

/-- Event built by `Producer.EmitResourceDeleted` (`src/producer.go`
lines 480-501). -/
def Producer.buildResourceDeleted (p : Producer) (now : Nat) (correlationID : String)
    (actor : Option Actor) (resource : Option Resource) (softDelete : Bool)
    (finalData : Option (List (String × Value)))
    (schemaAnns : List (String × FieldAnnotations)) (api : List String) : Event :=
  .resourceDeleted
    (p.createBaseEvent now "resource.deleted" correlationID none [resolveEmitAPIID api resource])
    actor resource softDelete (p.redactData finalData schemaAnns)

/-! Section: spec-side comparison definitions.

These definitions follow the words of claims (or their amendments), to
be compared with the source-derived definitions above. -/

/-- The API precedence exactly as claim C4 words it: explicit per-call
argument if non-empty, otherwise the producer-level default API,
otherwise the resource-type fallback, otherwise the empty string. -/
def claimedAPIResolution (explicitArgs : List String) (producerAPI : String)
    (resource : Option Resource) : String :=
  let fromResource := match resource with
    | some res => res.rtype
    | none => ""
  let fromExplicit := match explicitArgs with
    | a :: _ => a
    | [] => ""
  if fromExplicit ≠ "" then fromExplicit
  else if producerAPI ≠ "" then producerAPI
  else if fromResource ≠ "" then fromResource
  else ""

/-- The amended API precedence: explicit per-call argument if
non-empty, otherwise the resource-type fallback if the resource is
present with a non-empty type, otherwise the producer-level default
API, otherwise the empty string. -/
def amendedAPIResolution (explicitArgs : List String) (producerAPI : String)
    (resource : Option Resource) : String :=
  let fromResource := match resource with
    | some res => res.rtype
    | none => ""
  let fromExplicit := match explicitArgs with
    | a :: _ => a
    | [] => ""
  if fromExplicit ≠ "" then fromExplicit
  else if fromResource ≠ "" then fromResource
  else producerAPI

/-- The amended HTTP-status-to-color rule: 2xx to the success status
color, 3xx to info, 4xx to warning, every code at least 500 (with no
upper bound) to error, and everything below 200 to no color. -/
def amendedStatusCodeColor (reg : ColorRegistry) (code : Int) : String :=
  if 200 ≤ code ∧ code ≤ 299 then reg.GetStatusColor "success"
  else if 300 ≤ code ∧ code ≤ 399 then reg.GetStatusColor "info"
  else if 400 ≤ code ∧ code ≤ 499 then reg.GetStatusColor "warning"
  else if 500 ≤ code then reg.GetStatusColor "error"
  else ""

/-- The variant-specific serialized field names, as spec section 3
lists them. -/
def variantFieldNames : Event → List String
  | .serviceStarted _ _ _ => ["version", "pid"]
  | .serviceHealthy _ _ => ["health_checks"]
  | .serviceShutdown _ _ _ => ["reason", "exit_code"]
  | .serviceCrashed _ _ _ _ => ["reason", "stack_trace", "exit_code"]
  | .requestReceived _ _ _ _ _ => ["method", "path", "user_agent", "remote_addr"]
  | .requestHandled _ _ _ _ _ _ _ =>
      ["actor", "resource", "status", "duration_ms", "status_code", "response_size_bytes"]
  | .requestErrored _ _ _ _ _ _ =>
      ["status", "error_message", "error_code", "status_code", "duration_ms"]
  | .requestRetried _ _ _ _ => ["retry_count", "delay_ms", "retry_reason"]
  | .queryStarted _ _ _ _ => ["query_id", "query", "params"]
  | .queryCompleted _ _ _ _ => ["query_id", "duration_ms", "rows_affected"]
  | .queryErrored _ _ _ _ _ => ["query_id", "error_message", "error_code", "duration_ms"]
  | .transactionStarted _ _ => ["transaction_id"]
  | .transactionCommitted _ _ _ => ["transaction_id", "duration_ms"]
  | .transactionRolledBack _ _ _ _ => ["transaction_id", "reason", "duration_ms"]
  | .resourceCreated _ _ _ _ => ["actor", "resource", "resource_data"]
  | .resourceUpdated _ _ _ _ _ _ =>
      ["actor", "resource", "previous_data", "new_data", "updated_fields"]
  | .resourceDeleted _ _ _ _ _ => ["actor", "resource", "soft_delete", "final_data"]

/-- A write that serializes or renders only the redacted form of `e`:
it is the primary JSON record of the redacted event, the secondary JSON
record of the redacted event, or a styled line rendered from the
redacted event. -/
def writeUsesOnlyRedacted (p : Producer) (e : Event) (w : Write) : Prop :=
  w = Write.jsonPrimary (serializeEvent (e.redactPII p.piiDetector p.redactor))
    ∨ w = Write.jsonSecondary (serializeEvent (e.redactPII p.piiDetector p.redactor))
    ∨ w = Write.styledLine (e.redactPII p.piiDetector p.redactor)

/-- A concrete producer used to instantiate hypotheses of proved
theorems at a concrete input. -/
def sampleProducer : Producer := NewProducer "user-service" "host-1"

/-- A concrete payload-bearing event. -/
def sampleResourceEvent : Event :=
  .resourceCreated ⟨"resource.created", 0, "user-service", "", "host-1", "", none⟩
    none none (some [("email", Value.str "x")])

/-- The single write `sampleProducer` performs for
`sampleResourceEvent`. -/
def sampleWrite : Write :=
  Write.jsonPrimary
    (serializeEvent (sampleResourceEvent.redactPII sampleProducer.piiDetector
      sampleProducer.redactor))

/-! Section: helper lemmas about the redactor. -/

theorem redactMapEntries_eq_map (r : Redactor) (d : PIIDetector) (l : List (String × Value)) :
    redactMapEntries r d l = l.map (fun pr => (pr.1, redactMapValue r d pr.1 pr.2)) := by
  induction l with
  | nil => simp [redactMapEntries]
  | cons pr rest ih => cases pr with | _ k v => simp [redactMapEntries, ih]

theorem redactSliceElems_eq_map (r : Redactor) (d : PIIDetector) (l : List Value) :
    redactSliceElems r d l = l.map (redactSliceValue r d) := by
  induction l with
  | nil => simp [redactSliceElems]
  | cons v rest ih => simp [redactSliceElems, ih]

theorem sizeOf_snd_lt_of_mem {pr : String × Value} {l : List (String × Value)}
    (h : pr ∈ l) : sizeOf pr.2 < sizeOf l := by
  have h1 := List.sizeOf_lt_of_mem h
  cases pr with | _ k v => simp at h1 ⊢; omega

theorem sizeOf_lt_of_mem_values {v : Value} {l : List Value} (h : v ∈ l) :
    sizeOf v < sizeOf l :=
  List.sizeOf_lt_of_mem h

/-- Core idempotence argument, by strong induction on the size of the
value: a second pass of the per-entry and per-element redaction is the
identity, provided the marker string matches no value pattern. -/
theorem redactValue_idem_aux (r : Redactor) (d : PIIDetector)
    (hmark : d.IsPIIValueStr r.redactionString = false) :
    ∀ n : Nat, ∀ v : Value, sizeOf v ≤ n →
      (∀ k, redactMapValue r d k (redactMapValue r d k v) = redactMapValue r d k v)
        ∧ redactSliceValue r d (redactSliceValue r d v) = redactSliceValue r d v := by
  intro n
  induction n using Nat.strong_induction_on with
  | _ n ih =>
    intro v hv
    have entriesIdem : ∀ nested : List (String × Value), sizeOf nested < sizeOf v →
        redactMapEntries r d (redactMapEntries r d nested) = redactMapEntries r d nested := by
      intro nested hlt
      rw [redactMapEntries_eq_map, redactMapEntries_eq_map, List.map_map]
      refine List.map_congr_left ?_
      intro pr hpr
      have hsz : sizeOf pr.2 < sizeOf nested := sizeOf_snd_lt_of_mem hpr
      have := (ih (sizeOf pr.2) (by omega) pr.2 le_rfl).1 pr.1
      simp [this]
    have elemsIdem : ∀ elems : List Value, sizeOf elems < sizeOf v →
        redactSliceElems r d (redactSliceElems r d elems) = redactSliceElems r d elems := by
      intro elems hlt
      rw [redactSliceElems_eq_map, redactSliceElems_eq_map, List.map_map]
      refine List.map_congr_left ?_
      intro x hx
      have hsz : sizeOf x < sizeOf elems := sizeOf_lt_of_mem_values hx
      exact (ih (sizeOf x) (by omega) x le_rfl).2
    constructor
    · intro k
      by_cases hf : d.IsPIIField k
      · simp [redactMapValue.eq_def, hf]
      · cases v with
        | str s =>
          by_cases hs : d.IsPIIValueStr s
          · simp [redactMapValue.eq_def, hf, PIIDetector.IsPIIValue, hs, hmark]
          · simp [redactMapValue.eq_def, hf, PIIDetector.IsPIIValue, hs]
        | map nested =>
          have hlt : sizeOf nested < sizeOf (Value.map nested) := by simp
          simp [redactMapValue.eq_def, hf, PIIDetector.IsPIIValue, entriesIdem nested hlt]
        | arr elems =>
          have hlt : sizeOf elems < sizeOf (Value.arr elems) := by simp
          simp [redactMapValue.eq_def, hf, PIIDetector.IsPIIValue, elemsIdem elems hlt]
        | int i => simp [redactMapValue.eq_def, hf, PIIDetector.IsPIIValue]
        | bool b => simp [redactMapValue.eq_def, hf, PIIDetector.IsPIIValue]
        | null => simp [redactMapValue.eq_def, hf, PIIDetector.IsPIIValue]
    · cases v with
      | str s =>
        by_cases hs : d.IsPIIValueStr s
        · simp [redactSliceValue.eq_def, PIIDetector.IsPIIValue, hs, hmark]
        · simp [redactSliceValue.eq_def, PIIDetector.IsPIIValue, hs]
      | map nested =>
        have hlt : sizeOf nested < sizeOf (Value.map nested) := by simp
        simp [redactSliceValue.eq_def, PIIDetector.IsPIIValue, entriesIdem nested hlt]
      | arr elems => simp [redactSliceValue.eq_def, PIIDetector.IsPIIValue]
      | int i => simp [redactSliceValue.eq_def, PIIDetector.IsPIIValue]
      | bool b => simp [redactSliceValue.eq_def, PIIDetector.IsPIIValue]
      | null => simp [redactSliceValue.eq_def, PIIDetector.IsPIIValue]

/-- Entry-list idempotence for any marker that matches no value
pattern. -/
theorem redactMapEntries_idem (r : Redactor) (d : PIIDetector)
    (hmark : d.IsPIIValueStr r.redactionString = false) (l : List (String × Value)) :
    redactMapEntries r d (redactMapEntries r d l) = redactMapEntries r d l := by
  rw [redactMapEntries_eq_map, redactMapEntries_eq_map, List.map_map]
  refine List.map_congr_left ?_
  intro pr _
  have := (redactValue_idem_aux r d hmark (sizeOf pr.2) pr.2 le_rfl).1 pr.1
  simp [this]

/-- Slice idempotence for any marker that matches no value pattern. -/
theorem redactSliceElems_idem (r : Redactor) (d : PIIDetector)
    (hmark : d.IsPIIValueStr r.redactionString = false) (l : List Value) :
    redactSliceElems r d (redactSliceElems r d l) = redactSliceElems r d l := by
  rw [redactSliceElems_eq_map, redactSliceElems_eq_map, List.map_map]
  refine List.map_congr_left ?_
  intro v _
  exact (redactValue_idem_aux r d hmark (sizeOf v) v le_rfl).2

/-- The `Option` wrapper of `RedactMap` is exactly `Option.map` of the
entry traversal. -/
theorem RedactMap_eq_optionMap (r : Redactor) (o : Option (List (String × Value)))
    (d : PIIDetector) :
    r.RedactMap o d = o.map (redactMapEntries r d) := by
  cases o <;> simp [Redactor.RedactMap]

/-! Section: helper lemmas about the color registry. -/

theorem mapInsert_forall (P : String × String → Prop) :
    ∀ (m : List (String × String)) (k v : String), (∀ pr ∈ m, P pr) → P (k, v) →
      ∀ pr ∈ mapInsert m k v, P pr := by
  intro m
  induction m with
  | nil =>
    intro k v _ hv pr hpr
    simp [mapInsert] at hpr
    simpa [hpr] using hv
  | cons hd tl ih =>
    intro k v hm hv pr hpr
    by_cases hk : hd.1 = k
    · rw [show mapInsert (hd :: tl) k v = (k, v) :: tl by
        cases hd; simp_all [mapInsert]] at hpr
      rcases List.mem_cons.mp hpr with h | h
      · simpa [h] using hv
      · exact hm pr (List.mem_cons_of_mem _ h)
    · rw [show mapInsert (hd :: tl) k v = hd :: mapInsert tl k v by
        cases hd; simp_all [mapInsert]] at hpr
      rcases List.mem_cons.mp hpr with h | h
      · exact hm pr (by simp [h])
      · exact ih k v (fun q hq => hm q (List.mem_cons_of_mem _ hq)) hv pr h

theorem applyStatusRegistrations_forall :
    ∀ (regs : List (String × String)) (r : ColorRegistry),
      (∀ pr ∈ r.statusColors, pr.2 ≠ "") → (∀ pr ∈ regs, pr.2 ≠ "") →
      ∀ pr ∈ (applyStatusRegistrations regs r).statusColors, pr.2 ≠ "" := by
  intro regs
  induction regs with
  | nil => intro r hr _; simpa [applyStatusRegistrations] using hr
  | cons reg rest ih =>
    intro r hr hregs
    have hstep : ∀ pr ∈ (r.RegisterStatusColor reg.1 reg.2).statusColors, pr.2 ≠ "" := by
      simp only [ColorRegistry.RegisterStatusColor]
      exact mapInsert_forall _ r.statusColors reg.1 reg.2 hr (hregs reg (by simp))
    have := ih (r.RegisterStatusColor reg.1 reg.2) hstep
      (fun q hq => hregs q (List.mem_cons_of_mem _ hq))
    simpa [applyStatusRegistrations] using this

theorem mapLookup_mem : ∀ {m : List (String × String)} {k c : String},
    mapLookup m k = some c → (k, c) ∈ m := by
  intro m
  induction m with
  | nil => intro k c h; simp [mapLookup] at h
  | cons hd tl ih =>
    intro k c h
    by_cases hk : hd.1 = k
    · rw [show mapLookup (hd :: tl) k = some hd.2 by cases hd; simp_all [mapLookup]] at h
      have : hd = (k, c) := by
        cases hd; simp at h hk; simp [hk, h]
      simp [← this]
    · rw [show mapLookup (hd :: tl) k = mapLookup tl k by cases hd; simp_all [mapLookup]] at h
      exact List.mem_cons_of_mem _ (ih h)

theorem defaultStatusColors_nonempty : ∀ pr ∈ defaultStatusColorsList, pr.2 ≠ "" := by
  decide

/-! Section: claim theorems. -/

/-- Claim C5: redaction is idempotent — applying `Redactor.RedactMap`
(with the default detector and the default marker) to its own result
yields an identical map, because the marker string matches neither
detector and keys are unchanged. -/
theorem claim5_redactMap_idempotent (data : Option (List (String × Value))) :
    NewRedactor.RedactMap (NewRedactor.RedactMap data NewPIIDetector) NewPIIDetector
      = NewRedactor.RedactMap data NewPIIDetector := by
  have hmark : NewPIIDetector.IsPIIValueStr NewRedactor.redactionString = false := by decide
  cases data with
  | none => simp [Redactor.RedactMap]
  | some m => simp [Redactor.RedactMap, redactMapEntries_idem NewRedactor NewPIIDetector hmark]

/-- Claim C9: redaction preserves structure — `RedactMap` returns a map
with exactly the keys of its input, `RedactSlice` and `RedactParams`
rewrite each position in place so lengths are preserved, and `nil`
inputs are returned as `nil`. -/
theorem claim9_redaction_preserves_structure (r : Redactor) (d : PIIDetector)
    (m : List (String × Value)) (l ps : List Value) :
    (redactMapEntries r d m).map Prod.fst = m.map Prod.fst
    ∧ redactMapEntries r d m = m.map (fun pr => (pr.1, redactMapValue r d pr.1 pr.2))
    ∧ (redactSliceElems r d l).length = l.length
    ∧ redactSliceElems r d l = l.map (redactSliceValue r d)
    ∧ r.RedactParams (some ps) = some (ps.map (redactParamValue r))
    ∧ (ps.map (redactParamValue r)).length = ps.length
    ∧ r.RedactMap none d = none
    ∧ r.RedactSlice none d = none
    ∧ r.RedactParams none = none := by
  refine ⟨?_, redactMapEntries_eq_map r d m, ?_, redactSliceElems_eq_map r d l, ?_, ?_, ?_, ?_, ?_⟩
  · rw [redactMapEntries_eq_map, List.map_map]
    exact List.map_congr_left (fun pr _ => rfl)
  · rw [redactSliceElems_eq_map]; simp
  · simp [Redactor.RedactParams]
  · simp
  · simp [Redactor.RedactMap]
  · simp [Redactor.RedactSlice]
  · simp [Redactor.RedactParams]

/-- Claim C1 (failing input): `Producer.redactData` on the payload
field `id` carrying value `"hello"`, with sensitivity metadata
pii set for `id`, leaves the value `"hello"` in place instead of
replacing it with the redaction marker — the flagged field is passed
through `Redactor.Redact`, which only replaces strings matching the
value-shape detector.  This contradicts the claim (and the function's
own doc comment). -/
theorem claim1_redactData_flagged_field_passthrough :
    (NewProducer "user-service" "host-1").redactData
      (some [("id", Value.str "hello")])
      [("id", ⟨true, false, false, false⟩)]
      = some [("id", Value.str "hello")] := by
  simp [Producer.redactData, NewProducer, redactDataEntries, redactDataValue,
    annLookup, Redactor.Redact, NewRedactor,
    show NewPIIDetector.IsPIIValueStr "hello" = false from by decide]

/-- Claim C2 (failing input): `Producer.redactData` on a field named
`email` with value `"not-an-email"` and no sensitivity metadata —
the field-name detector matches, so the field is selected for
redaction, but `Redactor.Redact` leaves the non-matching string
unchanged, so the output still carries `"not-an-email"` instead of the
marker. -/
theorem claim2_redactData_name_match_passthrough :
    (NewProducer "user-service" "host-1").redactData
      (some [("email", Value.str "not-an-email")]) []
      = some [("email", Value.str "not-an-email")] := by
  simp [Producer.redactData, NewProducer, redactDataEntries, redactDataValue,
    annLookup, Redactor.Redact, NewRedactor,
    show NewPIIDetector.IsPIIField "email" = true from by decide,
    show NewPIIDetector.IsPIIValueStr "not-an-email" = false from by decide]

/-- The api resolved by `createBaseEvent` for the emit functions that
use the resource-type fallback equals the amended three-tier
precedence. -/
theorem createBaseEvent_api_amended (p : Producer) (now : Nat) (et corr : String)
    (md : Option (List (String × Value))) (api : List String) (resource : Option Resource) :
    (p.createBaseEvent now et corr md [resolveEmitAPIID api resource]).api
      = amendedAPIResolution api p.api resource := by
  rcases api with _ | ⟨a, rest⟩ <;> rcases resource with _ | res <;>
    simp [Producer.createBaseEvent, resolveEmitAPIID, amendedAPIResolution] <;>
    split_ifs <;> simp_all

/-- Claim C4 (counterexample): with a producer-level default API
`svc.DefaultAPI`, no explicit per-call API argument and a resource of
type `Order`, `EmitRequestHandled` builds an event whose api is
`Order` (the resource-type fallback), while the claimed precedence
(producer default before resource fallback) would give
`svc.DefaultAPI`. -/
theorem claim4_counterexample :
    (((NewProducer "user-service" "host-1").withAPI "svc.DefaultAPI").buildRequestHandled
        0 "corr-1" none (some ⟨"Order", "o-1"⟩) 200 5 10 []).base.api = "Order"
    ∧ claimedAPIResolution [] "svc.DefaultAPI" (some ⟨"Order", "o-1"⟩) = "svc.DefaultAPI"
    ∧ ("Order" : String) ≠ "svc.DefaultAPI" := by
  refine ⟨?_, ?_, ?_⟩
  · simp [NewProducer, Producer.withAPI, Producer.buildRequestHandled,
      Producer.createBaseEvent, resolveEmitAPIID, Event.base]
  · simp [claimedAPIResolution]
  · decide

/-- Claim C4 (amended): for the resource and request-outcome emitters
the api is resolved as — explicit per-call argument if non-empty,
otherwise the resource-type fallback if the resource is present with a
non-empty type, otherwise the producer-level default API, otherwise
(the default being empty) the empty string. -/
theorem claim4_amended_api_resolution (p : Producer) (now : Nat) (corr : String)
    (actor : Option Actor) (resource : Option Resource)
    (statusCode durationMs responseSizeBytes : Int)
    (resourceData previousData newData finalData : Option (List (String × Value)))
    (updatedFields : List String) (softDelete : Bool)
    (schemaAnns : List (String × FieldAnnotations)) (api : List String) :
    (p.buildRequestHandled now corr actor resource statusCode durationMs
        responseSizeBytes api).base.api = amendedAPIResolution api p.api resource
    ∧ (p.buildResourceCreated now corr actor resource resourceData schemaAnns
        api).base.api = amendedAPIResolution api p.api resource
    ∧ (p.buildResourceUpdated now corr actor resource previousData newData updatedFields
        schemaAnns api).base.api = amendedAPIResolution api p.api resource
    ∧ (p.buildResourceDeleted now corr actor resource softDelete finalData schemaAnns
        api).base.api = amendedAPIResolution api p.api resource := by
  refine ⟨?_, ?_, ?_, ?_⟩ <;>
    simp [Producer.buildRequestHandled, Producer.buildResourceCreated,
      Producer.buildResourceUpdated, Producer.buildResourceDeleted, Event.base,
      createBaseEvent_api_amended]

/-- Claim C6 (counterexample): HTTP status code 600 lies outside
100-599, so the claim maps it to no color, but `getStatusCodeColor`
has no upper bound on its 500-branch and returns the error status
color. -/
theorem claim6_counterexample :
    NewStyledOutput.getStatusCodeColor 600 = "#FF0000"
    ∧ ("#FF0000" : String) ≠ "" := by
  constructor
  · simp [NewStyledOutput, StyledOutput.getStatusCodeColor, NewColorRegistry,
      ColorRegistry.GetStatusColor, defaultStatusColorsList, mapLookup]
  · decide

/-- Claim C6 (amended): 2xx resolves to the success status color, 3xx
to info, 4xx to warning, every code of at least 500 (with no upper
bound) to error, every other code (below 200) to no color; without a
registry the result is always empty. -/
theorem claim6_amended_status_code_color (b1 b2 : Bool) (reg : ColorRegistry) (code : Int) :
    (StyledOutput.mk b1 b2 (some reg)).getStatusCodeColor code = amendedStatusCodeColor reg code
    ∧ (StyledOutput.mk b1 b2 none).getStatusCodeColor code = "" := by
  constructor
  · simp only [StyledOutput.getStatusCodeColor, amendedStatusCodeColor]
    split_ifs <;> first | rfl | omega
  · simp [StyledOutput.getStatusCodeColor]

/-- Claim C7: `GetStatusColor` is total — on any registry reachable by
registering (non-empty) status colors over the pre-seeded defaults it
never returns the empty string, and a status found in neither the
overrides nor the twelve defaults gets the gray `#808080`. -/
theorem claim7_get_status_color_total (regs : List (String × String)) (status : String)
    (hne : ∀ pr ∈ regs, pr.2 ≠ "") :
    (applyStatusRegistrations regs NewColorRegistry).GetStatusColor status ≠ ""
    ∧ (mapLookup (applyStatusRegistrations regs NewColorRegistry).statusColors status = none →
        (applyStatusRegistrations regs NewColorRegistry).GetStatusColor status = "#808080") := by
  have hinv : ∀ pr ∈ (applyStatusRegistrations regs NewColorRegistry).statusColors, pr.2 ≠ "" :=
    applyStatusRegistrations_forall regs NewColorRegistry
      (by simpa [NewColorRegistry] using defaultStatusColors_nonempty) hne
  constructor
  · rcases hcase : mapLookup (applyStatusRegistrations regs NewColorRegistry).statusColors status
      with _ | c
    · simp [ColorRegistry.GetStatusColor, hcase]
    · have := hinv (status, c) (mapLookup_mem hcase)
      simpa [ColorRegistry.GetStatusColor, hcase] using this
  · intro hnone
    simp [ColorRegistry.GetStatusColor, hnone]

/-- Claim C7 witness at a concrete registration and an unknown
status. -/
theorem claim7_witness :
    (applyStatusRegistrations [("deploying", "#123456")] NewColorRegistry).GetStatusColor
        "nonexistent-status" ≠ ""
    ∧ (mapLookup (applyStatusRegistrations [("deploying", "#123456")]
          NewColorRegistry).statusColors "nonexistent-status" = none →
        (applyStatusRegistrations [("deploying", "#123456")] NewColorRegistry).GetStatusColor
          "nonexistent-status" = "#808080") :=
  claim7_get_status_color_total [("deploying", "#123456")] "nonexistent-status" (by decide)

/-- Claim C10: every `db.query.*` and `db.transaction.*` build takes
its correlation id from the context value under `"correlation_id"`,
which is the stored string when one is present and the empty string
when the value is absent or not a string. -/
theorem claim10_db_correlation_from_context (p : Producer) (now : Nat) (ctx : Ctx)
    (queryID query errorMessage errorCode transactionID reason : String)
    (params : Option (List Value)) (durationMs rowsAffected : Int) :
    (p.buildQueryStarted now ctx queryID query params).base.correlationID
        = extractCorrelationID ctx
    ∧ (p.buildQueryCompleted now ctx queryID durationMs rowsAffected).base.correlationID
        = extractCorrelationID ctx
    ∧ (p.buildQueryErrored now ctx queryID errorMessage errorCode
        durationMs).base.correlationID = extractCorrelationID ctx
    ∧ (p.buildTransactionStarted now ctx transactionID).base.correlationID
        = extractCorrelationID ctx
    ∧ (p.buildTransactionCommitted now ctx transactionID durationMs).base.correlationID
        = extractCorrelationID ctx
    ∧ (p.buildTransactionRolledBack now ctx transactionID reason
        durationMs).base.correlationID = extractCorrelationID ctx
    ∧ (∀ s, ctxLookup ctx "correlation_id" = some (CtxValue.str s) →
        extractCorrelationID ctx = s)
    ∧ (ctxLookup ctx "correlation_id" = none → extractCorrelationID ctx = "")
    ∧ (ctxLookup ctx "correlation_id" = some CtxValue.nonString →
        extractCorrelationID ctx = "") := by
  refine ⟨?_, ?_, ?_, ?_, ?_, ?_, ?_, ?_, ?_⟩
  · simp [Producer.buildQueryStarted, Producer.createBaseEvent, Event.base]
  · simp [Producer.buildQueryCompleted, Producer.createBaseEvent, Event.base]
  · simp [Producer.buildQueryErrored, Producer.createBaseEvent, Event.base]
  · simp [Producer.buildTransactionStarted, Producer.createBaseEvent, Event.base]
  · simp [Producer.buildTransactionCommitted, Producer.createBaseEvent, Event.base]
  · simp [Producer.buildTransactionRolledBack, Producer.createBaseEvent, Event.base]
  · intro s h; simp [extractCorrelationID, h]
  · intro h; simp [extractCorrelationID, h]
  · intro h; simp [extractCorrelationID, h]

/-- Claim C10 witness at a concrete context carrying a string
correlation id. -/
theorem claim10_witness :
    ((NewProducer "user-service" "host-1").buildQueryStarted 0
        [("correlation_id", CtxValue.str "corr-9")] "q1" "SELECT 1" none).base.correlationID
      = extractCorrelationID [("correlation_id", CtxValue.str "corr-9")]
    ∧ extractCorrelationID [("correlation_id", CtxValue.str "corr-9")] = "corr-9" :=
  ⟨(claim10_db_correlation_from_context (NewProducer "user-service" "host-1") 0
      [("correlation_id", CtxValue.str "corr-9")] "q1" "SELECT 1" "" "" "" ""
      none 0 0).1,
   (claim10_db_correlation_from_context (NewProducer "user-service" "host-1") 0
      [("correlation_id", CtxValue.str "corr-9")] "q1" "SELECT 1" "" "" "" ""
      none 0 0).2.2.2.2.2.2.1 "corr-9" (by simp [ctxLookup])⟩

/-- Claim C3: on every code path of `emitEvent` (plain JSON mode and
styled/dual mode) every sink write serializes or renders only the
redacted form of the event — no write carries pre-redaction payload
state — and redaction rewrites exactly the payload maps by the
`RedactMap` traversal. -/
theorem claim3_redaction_precedes_serialization (p : Producer) (e : Event) (w : Write)
    (hw : w ∈ p.emitEventWrites e) :
    writeUsesOnlyRedacted p e w
    ∧ (e.redactPII p.piiDetector p.redactor).payloadMaps
        = e.payloadMaps.map (Option.map (redactMapEntries p.redactor p.piiDetector)) := by
  constructor
  · unfold writeUsesOnlyRedacted
    rcases hst : p.styled with _ | s
    · simp [Producer.emitEventWrites, hst] at hw
      exact Or.inl hw
    · by_cases hjson : s.jsonOutputSet <;> by_cases honly : s.jsonOnly <;>
        simp [Producer.emitEventWrites, hst, StyledOutput.WriteEventWrites, hjson, honly] at hw <;>
        tauto
  · cases e <;> simp [Event.redactPII, Event.payloadMaps, RedactMap_eq_optionMap]

/-- Claim C3 witness at a concrete producer, payload-bearing event and
its single write. -/
theorem claim3_witness :
    writeUsesOnlyRedacted sampleProducer sampleResourceEvent sampleWrite
    ∧ (sampleResourceEvent.redactPII sampleProducer.piiDetector
          sampleProducer.redactor).payloadMaps
        = sampleResourceEvent.payloadMaps.map
            (Option.map (redactMapEntries sampleProducer.redactor sampleProducer.piiDetector)) :=
  claim3_redaction_precedes_serialization sampleProducer sampleResourceEvent sampleWrite
    (by simp [sampleWrite, Producer.emitEventWrites, sampleProducer, NewProducer])

/-- Claim C8: in plain sink mode every emission writes exactly one
serialized record (one JSON object, one line via the trailing
`Fprintln`), and for every variant the top-level field names of the
serialized record are `event_type`, `timestamp`, `service`, `api`,
`host`, `correlation_id`, `metadata` followed by the variant-specific
names. -/
theorem claim8_serialized_record_shape :
    (∀ (p : Producer) (e : Event), p.styled = none →
      p.emitEventWrites e
        = [Write.jsonPrimary (serializeEvent (e.redactPII p.piiDetector p.redactor))])
    ∧ ∀ e : Event, (serializeEvent e).map Prod.fst = baseFieldNames ++ variantFieldNames e := by
  constructor
  · intro p e hst
    simp [Producer.emitEventWrites, hst]
  · intro e
    cases e <;> simp [serializeEvent, baseFields, variantFields, baseFieldNames,
      variantFieldNames, Event.base]

/-- Claim C8 witness at a concrete plain-mode producer and event. -/
theorem claim8_witness :
    sampleProducer.emitEventWrites sampleResourceEvent
      = [Write.jsonPrimary (serializeEvent (sampleResourceEvent.redactPII
          sampleProducer.piiDetector sampleProducer.redactor))]
    ∧ (serializeEvent sampleResourceEvent).map Prod.fst
        = baseFieldNames ++ variantFieldNames sampleResourceEvent :=
  ⟨claim8_serialized_record_shape.1 sampleProducer sampleResourceEvent rfl,
   claim8_serialized_record_shape.2 sampleResourceEvent⟩

end Lifecycle
